import Mathlib

/-!
Shallow embedding of the AVOLT LINE bot webhook handlers.

Two variants exist in the repository:
* `src/index.js` — the Supabase-backed variant (`handleEvent`, `handleCommand`,
  `isNumberLike`, `upsertRsvp`).
* `src/unnamed/part_000` — the in-memory variant (`memHandleEvent`,
  `memCommand`, with `parseIntJs` modelling JavaScript `parseInt(text, 10)`).

Modelling conventions:
* JavaScript `Map` objects (sessions, in-memory stores) are modelled as
  association lists with JS `Map.set` / `Map.delete` semantics (`mapSet`,
  `mapDelete`).  The Supabase `rsvps` table is likewise an association list,
  `upsertRsvp` modelling `upsert … onConflict user_id`, and the `blessings`
  table is an append-only list of `(user_id, message)` rows.
* Replies are identified by which `client.replyMessage` call produced them
  (inductive `Reply`), carrying the data interpolated into the message text.
* Supabase calls that can fail (`getRsvp`, `upsertRsvp`, `insertBlessing`
  throw on error) are modelled by failure flags (`DbFlags`); a thrown error
  is `Except.error ()` in the first component of the result, paired with the
  global state as it stood when the exception propagated (the webhook route
  catches it and answers HTTP 500, sending no reply message to the user).
* Flex-bubble JSON loading is treated as always succeeding; its try/catch
  fallback only changes the reply text, never any state.
* JS `.trim()` is modelled by `normalizeText` (drop whitespace at both ends
  of the character list), JS `.toLowerCase()` by `lowerStr` (ASCII lowering,
  the identity on Thai), JS `.includes` by `jsIncludes`, and a session's
  absent `temp.fullName` by the empty string (it is only read in states
  where the code has already stored it).
-/

namespace Avolt

/-- Message type of an inbound LINE event (`event.message.type`);
`other` stands for any type that is none of text, image, file. -/
inductive MType
  | text
  | image
  | file
  | other
deriving DecidableEq

/-- The `step` field of a session, `src/index.js` line 97. -/
inductive Step
  | ASK_NAME
  | ASK_COUNT
  | ASK_BLESSING
  | ASK_GIFT_SLIP
deriving DecidableEq

/-- A session value: `{ step, temp: { fullName? } }` in `src/index.js`
(`{ step, fullName? }` in the in-memory variant).  An absent `fullName`
is modelled as `""`. -/
structure Session where
  step : Step
  fullName : String := ""
deriving DecidableEq

/-- A row of the Supabase `rsvps` table as read back by the code
(`user_id` is the association-list key, `updated_at` is never read). -/
structure Rsvp where
  full_name : String
  guests_count : Nat
deriving DecidableEq

/-- An entry of the in-memory `rsvpStore` of `src/unnamed/part_000`
(`updatedAt` is never read). -/
structure MemRsvp where
  fullName : String
  guestsCount : Nat
deriving DecidableEq

/-- An inbound LINE webhook event, restricted to the fields the handlers
read: `event.type === "message"`, `event.message.type`, `event.message.text`
and `event.source.userId`. -/
structure Event where
  isMessage : Bool
  mtype : MType
  mtext : String
  userId : Option String
deriving DecidableEq

/-- Identifies which `client.replyMessage` call of the source produced the
reply, with the data interpolated into the reply text as arguments. -/
inductive Reply
  | noUserId
  | giftThanks
  | giftReprompt
  | askNameReprompt
  | askCountPrompt
  | askCountReprompt
  | confirmDone (name : String) (count : Nat)
  | blessReprompt
  | blessDone
  | flexWedding
  | flexTravel
  | flexBlessing
  | blessStart
  | flexConfirm
  | alreadyConfirmed (name : String) (count : Nat)
  | askName
  | editAskName
  | flexGift
  | slipStart
  | helpMenu
  | fallback
  | privateOnlyBless
  | privateOnlyConfirm
deriving DecidableEq

/-- Failure flags for the three Supabase operations: when a flag is set the
corresponding call throws (`if (error) throw error`). -/
structure DbFlags where
  getFails : Bool := false
  upsertFails : Bool := false
  insertFails : Bool := false
deriving DecidableEq

instance {ε α : Type} [DecidableEq ε] [DecidableEq α] :
    DecidableEq (Except ε α) := fun a b =>
  match a, b with
  | .error x, .error y =>
    if h : x = y then .isTrue (by rw [h])
    else .isFalse (fun hc => h (Except.error.inj hc))
  | .ok x, .ok y =>
    if h : x = y then .isTrue (by rw [h])
    else .isFalse (fun hc => h (Except.ok.inj hc))
  | .error _, .ok _ => .isFalse (fun hc => Except.noConfusion hc)
  | .ok _, .error _ => .isFalse (fun hc => Except.noConfusion hc)

/-- Association list keyed by a user id, modelling a JS `Map` or a
Supabase table with a unique key column. -/
abbrev SMap (α : Type) := List (String × α)

/-- JS `Map.prototype.get` / keyed row selection: the value at the first
entry with the key, if any. -/
def lookupK (k : String) : SMap α → Option α
  | [] => none
  | p :: t => if p.1 = k then some p.2 else lookupK k t

/-- Whether the association list has an entry with the key. -/
def hasKey (k : String) : SMap α → Bool
  | [] => false
  | p :: t => if p.1 = k then true else hasKey k t

/-- JS `Map.prototype.set` / Supabase upsert-on-conflict: replace the value
at an existing key in place, otherwise append a fresh entry. -/
def mapSet (k : String) (v : α) (m : SMap α) : SMap α :=
  if hasKey k m then
    m.map (fun p => if p.1 = k then (k, v) else p)
  else
    m ++ [(k, v)]

/-- JS `Map.prototype.delete` / row deletion: drop every entry at the key. -/
def mapDelete (k : String) : SMap α → SMap α
  | [] => []
  | p :: t => if p.1 = k then mapDelete k t else p :: mapDelete k t

/-- The keys of an association list. -/
def keys (m : SMap α) : List String :=
  m.map Prod.fst

/-- The number of entries stored under a key. -/
def countKey (k : String) : SMap α → Nat
  | [] => 0
  | p :: t => if p.1 = k then countKey k t + 1 else countKey k t

/-- The global mutable state of `src/index.js`: the `sessions` map and the
two Supabase tables. -/
structure St where
  sessions : SMap Session
  rsvps : SMap Rsvp
  blessings : List (String × String)
deriving DecidableEq

/-- The global mutable state of `src/unnamed/part_000`: the `sessions`,
`rsvpStore` and `blessingStore` maps. -/
structure MemSt where
  sessions : SMap Session
  rsvps : SMap MemRsvp
  blessings : SMap (List String)
deriving DecidableEq

/-- JS `(t || "").trim()` (`normalizeText` in both variants): drop
whitespace from both ends. -/
def normalizeText (t : String) : String :=
  String.mk (((t.data.dropWhile Char.isWhitespace).reverse.dropWhile
    Char.isWhitespace).reverse)

/-- JS `.toLowerCase()` restricted to the ASCII range (the identity on the
Thai script, which is all the code compares after lowering). -/
def lowerStr (s : String) : String :=
  String.mk (s.data.map Char.toLower)

/-- Whether the first list is a leading segment of the second
(JS `String.prototype.startsWith` on character lists). -/
def jsStartsWith : List Char → List Char → Bool
  | [], _ => true
  | _ :: _, [] => false
  | a :: as, b :: bs => a == b && jsStartsWith as bs

/-- Whether `needle` occurs contiguously inside the list. -/
def hasSub (needle : List Char) : List Char → Bool
  | [] => needle.isEmpty
  | h :: t => jsStartsWith needle (h :: t) || hasSub needle t

/-- JS `hay.includes(needle)`. -/
def jsIncludes (hay needle : String) : Bool :=
  hasSub needle.data hay.data

/-- The digit run found by `text.match(/\d+/)`: the first contiguous run of
decimal digits, if any. -/
def digitRunFrom : List Char → Option (List Char)
  | [] => none
  | c :: cs => if c.isDigit then some (c :: cs.takeWhile Char.isDigit)
    else digitRunFrom cs

/-- Decimal value of a digit-character list. -/
def natOfDigits (ds : List Char) : Nat :=
  ds.foldl (fun a c => a * 10 + (c.toNat - 48)) 0

/-- Function `isNumberLike` of `src/index.js` lines 186–192: match `/\d+/` and
`parseInt` the first digit run; `none` models the `null` returns. -/
def isNumberLike (text : String) : Option Nat :=
  (digitRunFrom text.data).map natOfDigits

/-- The digits at the head of a character list. -/
def leadDigits (cs : List Char) : List Char :=
  cs.takeWhile Char.isDigit

/-- JS `parseInt(s, 10)` on already-trimmed input: an optional sign followed
by leading digits; `none` models `NaN` (no leading digits). -/
def parseIntJs (s : String) : Option Int :=
  match s.data with
  | '-' :: cs =>
    if (leadDigits cs).isEmpty then none
    else some (-(natOfDigits (leadDigits cs) : Int))
  | '+' :: cs =>
    if (leadDigits cs).isEmpty then none
    else some ((natOfDigits (leadDigits cs) : Int))
  | cs =>
    if (leadDigits cs).isEmpty then none
    else some ((natOfDigits (leadDigits cs) : Int))

/-- Function `isNumberInRange` of `src/unnamed/part_000` (on a successfully parsed,
hence finite, number). -/
def isNumberInRange (n : Int) (lo hi : Int) : Bool :=
  lo ≤ n && n ≤ hi

/-- Function `upsertRsvp` of `src/index.js` lines 113–130: Supabase
`upsert({...}, { onConflict: "user_id" })`, i.e. replace the row with key
`userId` if present, otherwise insert it. -/
def upsertRsvp (userId fullName : String) (guestsCount : Nat)
    (m : SMap Rsvp) : SMap Rsvp :=
  mapSet userId ⟨fullName, guestsCount⟩ m

/-- The pay-slip trigger condition of `src/index.js` lines 423–431. -/
def isPaySlipTrigger (text : String) : Bool :=
  let tLower := lowerStr text
  text == "แนบสลิป / Pay Slip" || text == "แนบ Payslip" ||
  text == "แนบ payslip" || text == "แนบสลิป" ||
  tLower == "pay slip" || tLower == "payslip" ||
  (jsIncludes tLower "แนบ" &&
    (jsIncludes tLower "slip" || jsIncludes tLower "payslip"))

/-- Section 2 of `handleEvent` in `src/index.js` (lines 307–459): command
routing for a text message when no session branch returned. -/
def handleCommand (fl : DbFlags) (userId text : String) (st : St) :
    Except Unit (Option Reply) × St :=
  if text = "รายละเอียดงาน" ∨ text = "รายละเอียดงานแต่งงาน" then
    (.ok (some .flexWedding), st)
  else if text = "การเดินทาง" ∨ lowerStr text = "travel" then
    (.ok (some .flexTravel), st)
  else if text = "คำอวยพร" then
    (.ok (some .flexBlessing), st)
  else if text = "อวยพร" then
    (.ok (some .blessStart),
      { st with sessions := mapSet userId ⟨.ASK_BLESSING, ""⟩ st.sessions })
  else if text = "ยืนยันมาร่วมงาน" ∨ lowerStr text = "rsvp" then
    (.ok (some .flexConfirm), st)
  else if text = "ยืนยัน เจอกันแน่นอน" ∨ text = "ยืนยันเจอกันแน่นอน" then
    if fl.getFails then (.error (), st)
    else
      match lookupK userId st.rsvps with
      | some r => (.ok (some (.alreadyConfirmed r.full_name r.guests_count)), st)
      | none =>
        (.ok (some .askName),
          { st with sessions := mapSet userId ⟨.ASK_NAME, ""⟩ st.sessions })
  else if text = "แก้ไขการยืนยัน" then
    (.ok (some .editAskName),
      { st with sessions := mapSet userId ⟨.ASK_NAME, ""⟩ st.sessions })
  else if text = "ของขวัญ" ∨ lowerStr text = "gift" then
    (.ok (some .flexGift), st)
  else if isPaySlipTrigger text then
    (.ok (some .slipStart),
      { st with sessions := mapSet userId ⟨.ASK_GIFT_SLIP, ""⟩ st.sessions })
  else if text = "help" ∨ text = "ช่วยเหลือ" ∨ text = "เมนู" then
    (.ok (some .helpMenu), st)
  else
    (.ok (some .fallback), st)

/-- The body of `handleEvent` of `src/index.js` after its prologue (lines
205–459): the session branches, the non-text early return and the command
routing, for an identified user.  The `const text` binding of line 206 only
differs from `normalizeText tx` when the message is not text, and every use
below is guarded by a text-type check, so it is inlined as `normalizeText
tx`; the final `else handleCommand …` of the session block mirrors the JS
fall-through out of `if (sess) { … }` when no step matched. -/
def handleMessage (fl : DbFlags) (userId : String) (mt : MType) (tx : String)
    (st : St) : Except Unit (Option Reply) × St :=
  match lookupK userId st.sessions with
  | some sess =>
    if sess.step = Step.ASK_GIFT_SLIP then
      if mt = MType.image ∨ mt = MType.file then
        (.ok (some .giftThanks),
          { st with sessions := mapDelete userId st.sessions })
      else if mt = MType.text then
        (.ok (some .giftReprompt), st)
      else
        (.ok none, st)
    else if mt ≠ MType.text then (.ok none, st)
    else if sess.step = Step.ASK_NAME then
      if (normalizeText tx).length < 2 then (.ok (some .askNameReprompt), st)
      else
        (.ok (some .askCountPrompt),
          { st with sessions :=
              mapSet userId ⟨Step.ASK_COUNT, normalizeText tx⟩ st.sessions })
    else if sess.step = Step.ASK_COUNT then
      match isNumberLike (normalizeText tx) with
      | none => (.ok (some .askCountReprompt), st)
      | some n =>
        if n < 1 ∨ 50 < n then (.ok (some .askCountReprompt), st)
        else if fl.upsertFails then (.error (), st)
        else
          (.ok (some (.confirmDone sess.fullName n)),
            { st with
                sessions := mapDelete userId st.sessions,
                rsvps := upsertRsvp userId sess.fullName n st.rsvps })
    else if sess.step = Step.ASK_BLESSING then
      if (normalizeText tx).length < 2 then (.ok (some .blessReprompt), st)
      else if fl.insertFails then (.error (), st)
      else
        (.ok (some .blessDone),
          { st with
              sessions := mapDelete userId st.sessions,
              blessings := st.blessings ++ [(userId, normalizeText tx)] })
    else handleCommand fl userId (normalizeText tx) st
  | none =>
    if mt ≠ MType.text then (.ok none, st)
    else handleCommand fl userId (normalizeText tx) st

/-- Function `handleEvent` of `src/index.js` lines 194–460: the prologue (non-message
drop, missing-userId apology) followed by `handleMessage`. -/
def handleEvent (fl : DbFlags) (ev : Event) (st : St) :
    Except Unit (Option Reply) × St :=
  if ev.isMessage = false then (.ok none, st)
  else
    match ev.userId with
    | none => (.ok (some .noUserId), st)
    | some userId => handleMessage fl userId ev.mtype ev.mtext st

/-- The per-step transition of the conversation state machine of
`src/index.js` on a text input (the four `sess.step` arms of `handleEvent`,
each transcribed verbatim; `text` is the already-normalized message). -/
def stepHandle (fl : DbFlags) (userId : String) (sess : Session)
    (text : String) (st : St) : Except Unit (Option Reply) × St :=
  match sess.step with
  | .ASK_GIFT_SLIP => (.ok (some .giftReprompt), st)
  | .ASK_NAME =>
    if text.length < 2 then (.ok (some .askNameReprompt), st)
    else
      (.ok (some .askCountPrompt),
        { st with sessions := mapSet userId ⟨Step.ASK_COUNT, text⟩ st.sessions })
  | .ASK_COUNT =>
    match isNumberLike text with
    | none => (.ok (some .askCountReprompt), st)
    | some n =>
      if n < 1 ∨ 50 < n then (.ok (some .askCountReprompt), st)
      else if fl.upsertFails then (.error (), st)
      else
        (.ok (some (.confirmDone sess.fullName n)),
          { st with
              sessions := mapDelete userId st.sessions,
              rsvps := upsertRsvp userId sess.fullName n st.rsvps })
  | .ASK_BLESSING =>
    if text.length < 2 then (.ok (some .blessReprompt), st)
    else if fl.insertFails then (.error (), st)
    else
      (.ok (some .blessDone),
        { st with
            sessions := mapDelete userId st.sessions,
            blessings := st.blessings ++ [(userId, text)] })

/-- The `startConfirm` condition of `src/unnamed/part_000`. -/
def memStartConfirm (text : String) : Prop :=
  text = "ยืนยัน" ∨ jsIncludes text "ยืนยัน เจอกันแน่นอน" = true ∨
  jsIncludes text "ยืนยันการมาร่วมงาน" = true ∨ jsIncludes text "กดยืนยัน" = true

instance (text : String) : Decidable (memStartConfirm text) := by
  unfold memStartConfirm
  infer_instance

/-- Command routing of `src/unnamed/part_000` (sections 2–4 of its
`handleEvent`); `uid` is `userId` and `none` means `canSave` is false. -/
def memCommand (uid : Option String) (text : String) (st : MemSt) :
    Option Reply × MemSt :=
  if jsIncludes text "รายละเอียดงาน" then (some .flexWedding, st)
  else if jsIncludes text "การเดินทาง" then (some .flexTravel, st)
  else if jsIncludes text "คำอวยพร" ∨ jsIncludes text "ฝากคำอวยพร" then
    (some .flexBlessing, st)
  else if jsIncludes text "ยืนยันมาร่วมงาน" then (some .flexConfirm, st)
  else if text = "อวยพร" ∨ jsIncludes text "เขียนอวยพร" then
    match uid with
    | none => (some .privateOnlyBless, st)
    | some u =>
      (some .blessStart,
        { st with sessions := mapSet u ⟨.ASK_BLESSING, ""⟩ st.sessions })
  else if memStartConfirm text then
    match uid with
    | none => (some .privateOnlyConfirm, st)
    | some u =>
      match lookupK u st.rsvps with
      | some r => (some (.alreadyConfirmed r.fullName r.guestsCount), st)
      | none =>
        (some .askName,
          { st with sessions := mapSet u ⟨.ASK_NAME, ""⟩ st.sessions })
  else if jsIncludes text "แก้ไขการยืนยัน" then
    match uid with
    | none => (none, st)
    | some u =>
      (some .editAskName,
        { st with sessions := mapSet u ⟨.ASK_NAME, ""⟩ st.sessions })
  else (some .helpMenu, st)

/-- The body of `handleEvent` of `src/unnamed/part_000` for a text message
from an identified user (`canSave` true): the three session arms and the
fall-through to command routing; the final `else memCommand …` mirrors the
JS fall-through when a session's step matches none of the three arms. -/
def memMessage (userId tx : String) (st : MemSt) : Option Reply × MemSt :=
  match lookupK userId st.sessions with
  | none => memCommand (some userId) (normalizeText tx) st
  | some sess =>
    if sess.step = Step.ASK_NAME then
      if (normalizeText tx).length < 3 then (some .askNameReprompt, st)
      else
        (some .askCountPrompt,
          { st with sessions :=
              mapSet userId ⟨.ASK_COUNT, normalizeText tx⟩ st.sessions })
    else if sess.step = Step.ASK_COUNT then
      match parseIntJs (normalizeText tx) with
      | none => (some .askCountReprompt, st)
      | some n =>
        if isNumberInRange n 1 20 then
          (some (.confirmDone sess.fullName n.toNat),
            { st with
                rsvps := mapSet userId ⟨sess.fullName, n.toNat⟩ st.rsvps,
                sessions := mapDelete userId st.sessions })
        else (some .askCountReprompt, st)
    else if sess.step = Step.ASK_BLESSING then
      if (normalizeText tx).length < 2 then (some .blessReprompt, st)
      else
        (some .blessDone,
          { st with
              blessings := mapSet userId
                ((lookupK userId st.blessings).getD [] ++ [normalizeText tx])
                st.blessings,
              sessions := mapDelete userId st.sessions })
    else memCommand (some userId) (normalizeText tx) st

/-- Function `handleEvent` of `src/unnamed/part_000`: the non-text/non-message early
return, then `memMessage` when the user is identified, else command routing
with `canSave` false. -/
def memHandleEvent (ev : Event) (st : MemSt) : Option Reply × MemSt :=
  if ev.isMessage = false ∨ ev.mtype ≠ MType.text then (none, st)
  else
    match ev.userId with
    | none => memCommand none (normalizeText ev.mtext) st
    | some userId => memMessage userId ev.mtext st

/-- The per-step transition of the in-memory conversation state machine of
`src/unnamed/part_000` on a text input (`text` already normalized): its
three session arms transcribed verbatim; any other step value falls
through to command routing exactly as the source's `if`-chain does — the
in-memory variant never creates such a session (see `c1_session_priority`,
whose last conjunct proves no event introduces an `ASK_GIFT_SLIP` session
into an in-memory state without one). -/
def memStepHandle (userId : String) (sess : Session) (text : String)
    (st : MemSt) : Option Reply × MemSt :=
  match sess.step with
  | .ASK_NAME =>
    if text.length < 3 then (some .askNameReprompt, st)
    else
      (some .askCountPrompt,
        { st with sessions := mapSet userId ⟨.ASK_COUNT, text⟩ st.sessions })
  | .ASK_COUNT =>
    match parseIntJs text with
    | none => (some .askCountReprompt, st)
    | some n =>
      if isNumberInRange n 1 20 then
        (some (.confirmDone sess.fullName n.toNat),
          { st with
              rsvps := mapSet userId ⟨sess.fullName, n.toNat⟩ st.rsvps,
              sessions := mapDelete userId st.sessions })
      else (some .askCountReprompt, st)
  | .ASK_BLESSING =>
    if text.length < 2 then (some .blessReprompt, st)
    else
      (some .blessDone,
        { st with
            blessings := mapSet userId
              ((lookupK userId st.blessings).getD [] ++ [text]) st.blessings,
            sessions := mapDelete userId st.sessions })
  | .ASK_GIFT_SLIP => memCommand (some userId) text st

/-- A text message event from an identified user. -/
def textEvent (u t : String) : Event :=
  ⟨true, MType.text, t, some u⟩

/-- The four flow-start conditions of `src/index.js` that create a session:
begin-confirmation, begin-well-wish, edit-confirmation, begin-attachment. -/
def isFlowStart (t : String) : Prop :=
  (t = "ยืนยัน เจอกันแน่นอน" ∨ t = "ยืนยันเจอกันแน่นอน") ∨ t = "อวยพร" ∨
  t = "แก้ไขการยืนยัน" ∨ isPaySlipTrigger t = true

instance (t : String) : Decidable (isFlowStart t) := by
  unfold isFlowStart
  infer_instance

/-- The flow-start conditions of `src/unnamed/part_000` that create a
session: begin-well-wish, begin-confirmation, edit-confirmation. -/
def memFlowStart (t : String) : Prop :=
  (t = "อวยพร" ∨ jsIncludes t "เขียนอวยพร" = true) ∨ memStartConfirm t ∨
  jsIncludes t "แก้ไขการยืนยัน" = true

instance (t : String) : Decidable (memFlowStart t) := by
  unfold memFlowStart
  infer_instance


/-! ### Association-list lemmas -/

theorem lookupK_of_hasKey_false {α : Type} {k : String} {m : SMap α}
    (h : hasKey k m = false) : lookupK k m = none := by
  induction m with
  | nil => rfl
  | cons p t ih =>
    by_cases hp : p.1 = k
    · simp [hasKey, hp] at h
    · simp only [hasKey, if_neg hp] at h
      simp [lookupK, hp, ih h]

theorem lookupK_append_of_hasKey_false {α : Type} {k : String} {m : SMap α}
    (l : SMap α) (h : hasKey k m = false) :
    lookupK k (m ++ l) = lookupK k l := by
  induction m with
  | nil => rfl
  | cons p t ih =>
    by_cases hp : p.1 = k
    · simp [hasKey, hp] at h
    · simp only [hasKey, if_neg hp] at h
      simp [lookupK, hp, ih h]

theorem lookupK_mapSet_self {α : Type} (k : String) (v : α) (m : SMap α) :
    lookupK k (mapSet k v m) = some v := by
  unfold mapSet
  cases h : hasKey k m
  · simp only [Bool.false_eq_true, if_false]
    rw [lookupK_append_of_hasKey_false _ h]
    simp [lookupK]
  · simp only [if_true]
    induction m with
    | nil => simp [hasKey] at h
    | cons p t ih =>
      by_cases hp : p.1 = k
      · simp [lookupK, hp]
      · simp only [hasKey, if_neg hp] at h
        simp [lookupK, hp, ih h]

theorem lookupK_map_replace_ne {α : Type} {k k' : String} (v : α)
    (m : SMap α) (h : k' ≠ k) :
    lookupK k' (m.map (fun p => if p.1 = k then (k, v) else p)) =
      lookupK k' m := by
  induction m with
  | nil => rfl
  | cons p t ih =>
    by_cases hp : p.1 = k
    · have h1 : ¬ (k = k') := fun hc => h hc.symm
      have h2 : ¬ (p.1 = k') := by rw [hp]; exact h1
      simp only [List.map_cons, if_pos hp, lookupK, if_neg h1, if_neg h2]
      exact ih
    · by_cases hq : p.1 = k'
      · simp only [List.map_cons, if_neg hp, lookupK, if_pos hq]
      · simp only [List.map_cons, if_neg hp, lookupK, if_neg hq]
        exact ih

theorem lookupK_append_single_ne {α : Type} {k k' : String} (v : α)
    (m : SMap α) (h : k' ≠ k) :
    lookupK k' (m ++ [(k, v)]) = lookupK k' m := by
  induction m with
  | nil =>
    show (if k = k' then some v else lookupK k' []) = none
    rw [if_neg (fun hc => h hc.symm)]
    rfl
  | cons p t ih =>
    by_cases hq : p.1 = k'
    · simp only [List.cons_append, lookupK, if_pos hq]
    · simp only [List.cons_append, lookupK, if_neg hq]
      exact ih

theorem lookupK_mapSet_ne {α : Type} {k k' : String} (v : α) (m : SMap α)
    (h : k' ≠ k) : lookupK k' (mapSet k v m) = lookupK k' m := by
  unfold mapSet
  cases hm : hasKey k m
  · simp only [Bool.false_eq_true, if_false]
    exact lookupK_append_single_ne v m h
  · simp only [if_true]
    exact lookupK_map_replace_ne v m h

theorem lookupK_mapDelete_self {α : Type} (k : String) (m : SMap α) :
    lookupK k (mapDelete k m) = none := by
  induction m with
  | nil => rfl
  | cons p t ih =>
    by_cases hp : p.1 = k
    · simp [mapDelete, hp, ih]
    · simp [mapDelete, lookupK, hp, ih]

theorem lookupK_mapDelete_ne {α : Type} {k k' : String} (m : SMap α)
    (h : k' ≠ k) : lookupK k' (mapDelete k m) = lookupK k' m := by
  induction m with
  | nil => rfl
  | cons p t ih =>
    by_cases hp : p.1 = k
    · have h2 : ¬ (p.1 = k') := by rw [hp]; exact fun hc => h hc.symm
      simp only [mapDelete, if_pos hp, lookupK, if_neg h2]
      exact ih
    · by_cases hq : p.1 = k'
      · simp only [mapDelete, if_neg hp, lookupK, if_pos hq]
      · simp only [mapDelete, if_neg hp, lookupK, if_neg hq]
        exact ih

theorem hasKey_mapSet_self {α : Type} (k : String) (v : α) (m : SMap α) :
    hasKey k (mapSet k v m) = true := by
  unfold mapSet
  cases h : hasKey k m
  · simp only [Bool.false_eq_true, if_false]
    induction m with
    | nil => simp [hasKey]
    | cons p t ih =>
      simp only [hasKey] at h
      by_cases hp : p.1 = k
      · simp [hp] at h
      · simp only [if_neg hp] at h
        simp [hasKey, hp, ih h]
  · simp only [if_true]
    induction m with
    | nil => simp [hasKey] at h
    | cons p t ih =>
      by_cases hp : p.1 = k
      · simp [hasKey, hp]
      · simp only [hasKey, if_neg hp] at h
        simp [hasKey, hp, ih h]

theorem map_replace_idem {α : Type} (k : String) (v : α) (m : SMap α) :
    (m.map (fun p => if p.1 = k then (k, v) else p)).map
      (fun p => if p.1 = k then (k, v) else p) =
    m.map (fun p => if p.1 = k then (k, v) else p) := by
  induction m with
  | nil => rfl
  | cons p t ih =>
    by_cases hp : p.1 = k
    · simp [hp, ih]
    · simp [hp, ih]

theorem map_replace_of_hasKey_false {α : Type} {k : String} {v : α}
    {m : SMap α} (h : hasKey k m = false) :
    m.map (fun p => if p.1 = k then (k, v) else p) = m := by
  induction m with
  | nil => rfl
  | cons p t ih =>
    simp only [hasKey] at h
    by_cases hp : p.1 = k
    · simp [hp] at h
    · simp only [if_neg hp] at h
      simp [hp, ih h]

theorem mapSet_idem {α : Type} (k : String) (v : α) (m : SMap α) :
    mapSet k v (mapSet k v m) = mapSet k v m := by
  conv_lhs => rw [mapSet]
  rw [hasKey_mapSet_self, if_pos rfl]
  unfold mapSet
  cases h : hasKey k m
  · simp only [Bool.false_eq_true, if_false]
    rw [List.map_append, map_replace_of_hasKey_false h]
    simp
  · simp only [if_true]
    exact map_replace_idem k v m

theorem length_mapSet_mapSet {α : Type} (k : String) (v₁ v₂ : α)
    (m : SMap α) :
    (mapSet k v₂ (mapSet k v₁ m)).length = (mapSet k v₁ m).length := by
  conv_lhs => rw [mapSet]
  rw [hasKey_mapSet_self, if_pos rfl, List.length_map]

theorem keys_map_replace {α : Type} (k : String) (v : α) (m : SMap α) :
    keys (m.map (fun p => if p.1 = k then (k, v) else p)) = keys m := by
  induction m with
  | nil => rfl
  | cons p t ih =>
    by_cases hp : p.1 = k
    · simp only [keys, List.map_cons] at ih ⊢
      simp [hp, ih]
    · simp only [keys, List.map_cons] at ih ⊢
      simp [hp, ih]

theorem not_mem_keys_of_hasKey_false {α : Type} {k : String} {m : SMap α}
    (h : hasKey k m = false) : k ∉ keys m := by
  induction m with
  | nil => simp [keys]
  | cons p t ih =>
    simp only [hasKey] at h
    by_cases hp : p.1 = k
    · simp [hp] at h
    · simp only [if_neg hp] at h
      simp only [keys, List.map_cons, List.mem_cons]
      rintro (hk | hk)
      · exact hp hk.symm
      · exact ih h hk

theorem nodup_keys_mapSet {α : Type} (k : String) (v : α) {m : SMap α}
    (h : (keys m).Nodup) : (keys (mapSet k v m)).Nodup := by
  unfold mapSet
  cases hm : hasKey k m
  · simp only [Bool.false_eq_true, if_false]
    have hkeys : keys (m ++ [(k, v)]) = keys m ++ [k] := by simp [keys]
    rw [hkeys, List.nodup_append]
    refine ⟨h, List.nodup_singleton k, ?_⟩
    intro a ha hb
    simp only [List.mem_singleton] at hb
    subst hb
    exact not_mem_keys_of_hasKey_false hm ha
  · simp only [if_true]
    rw [keys_map_replace]
    exact h

theorem mem_keys_mapDelete {α : Type} {a k : String} {m : SMap α}
    (h : a ∈ keys (mapDelete k m)) : a ∈ keys m := by
  induction m with
  | nil => simpa [mapDelete] using h
  | cons p t ih =>
    by_cases hp : p.1 = k
    · simp only [mapDelete, if_pos hp] at h
      simp [keys, List.mem_cons]
      exact Or.inr (by simpa [keys] using ih h)
    · simp only [mapDelete, if_neg hp, keys, List.map_cons, List.mem_cons]
        at h ⊢
      rcases h with h | h
      · exact Or.inl h
      · exact Or.inr (by simpa [keys] using ih (by simpa [keys] using h))

theorem nodup_keys_mapDelete {α : Type} (k : String) {m : SMap α}
    (h : (keys m).Nodup) : (keys (mapDelete k m)).Nodup := by
  induction m with
  | nil => simp [mapDelete, keys]
  | cons p t ih =>
    simp only [keys, List.map_cons, List.nodup_cons] at h
    by_cases hp : p.1 = k
    · simp only [mapDelete, if_pos hp]
      exact ih (by simpa [keys] using h.2)
    · simp only [mapDelete, if_neg hp, keys, List.map_cons, List.nodup_cons]
      refine ⟨?_, ih (by simpa [keys] using h.2)⟩
      intro hc
      exact h.1 (by simpa [keys] using mem_keys_mapDelete (by simpa [keys] using hc))

theorem countKey_eq_zero_of_not_mem {α : Type} {k : String} {m : SMap α}
    (h : k ∉ keys m) : countKey k m = 0 := by
  induction m with
  | nil => rfl
  | cons p t ih =>
    simp only [keys, List.map_cons, List.mem_cons, not_or] at h
    have hp : ¬ (p.1 = k) := fun hc => h.1 (hc ▸ rfl)
    simp [countKey, hp, ih (by simpa [keys] using h.2)]

theorem countKey_le_one_of_nodup {α : Type} (k : String) {m : SMap α}
    (h : (keys m).Nodup) : countKey k m ≤ 1 := by
  induction m with
  | nil => exact Nat.zero_le 1
  | cons p t ih =>
    simp only [keys, List.map_cons, List.nodup_cons] at h
    by_cases hp : p.1 = k
    · have hz : countKey k t = 0 :=
        countKey_eq_zero_of_not_mem (by simpa [keys, hp] using h.1)
      simp [countKey, hp, hz]
    · simpa [countKey, hp] using ih (by simpa [keys] using h.2)

/-! ### Handler shape lemmas -/

set_option maxHeartbeats 800000 in
theorem handleCommand_shape (fl : DbFlags) (u t : String) (st : St) :
    (handleCommand fl u t st).2 = st ∨
      ∃ s : Session, (handleCommand fl u t st).2 =
          { st with sessions := mapSet u s st.sessions } ∧ isFlowStart t := by
  unfold handleCommand
  by_cases h1 : t = "รายละเอียดงาน" ∨ t = "รายละเอียดงานแต่งงาน"
  · rw [if_pos h1]
    exact Or.inl rfl
  rw [if_neg h1]
  by_cases h2 : t = "การเดินทาง" ∨ lowerStr t = "travel"
  · rw [if_pos h2]
    exact Or.inl rfl
  rw [if_neg h2]
  by_cases h3 : t = "คำอวยพร"
  · rw [if_pos h3]
    exact Or.inl rfl
  rw [if_neg h3]
  by_cases h4 : t = "อวยพร"
  · rw [if_pos h4]
    exact Or.inr ⟨⟨.ASK_BLESSING, ""⟩, rfl, Or.inr (Or.inl h4)⟩
  rw [if_neg h4]
  by_cases h5 : t = "ยืนยันมาร่วมงาน" ∨ lowerStr t = "rsvp"
  · rw [if_pos h5]
    exact Or.inl rfl
  rw [if_neg h5]
  by_cases h6 : t = "ยืนยัน เจอกันแน่นอน" ∨ t = "ยืนยันเจอกันแน่นอน"
  · rw [if_pos h6]
    by_cases hg : fl.getFails = true
    · rw [if_pos hg]
      exact Or.inl rfl
    rw [if_neg hg]
    cases hr : lookupK u st.rsvps with
    | some r => exact Or.inl rfl
    | none => exact Or.inr ⟨⟨.ASK_NAME, ""⟩, rfl, Or.inl h6⟩
  rw [if_neg h6]
  by_cases h7 : t = "แก้ไขการยืนยัน"
  · rw [if_pos h7]
    exact Or.inr ⟨⟨.ASK_NAME, ""⟩, rfl, Or.inr (Or.inr (Or.inl h7))⟩
  rw [if_neg h7]
  by_cases h8 : t = "ของขวัญ" ∨ lowerStr t = "gift"
  · rw [if_pos h8]
    exact Or.inl rfl
  rw [if_neg h8]
  by_cases h9 : isPaySlipTrigger t = true
  · rw [if_pos h9]
    exact Or.inr ⟨⟨.ASK_GIFT_SLIP, ""⟩, rfl, Or.inr (Or.inr (Or.inr h9))⟩
  rw [if_neg h9]
  by_cases h10 : t = "help" ∨ t = "ช่วยเหลือ" ∨ t = "เมนู"
  · rw [if_pos h10]
    exact Or.inl rfl
  rw [if_neg h10]
  exact Or.inl rfl

theorem handleCommand_rsvps (fl : DbFlags) (u t : String) (st : St) :
    ((handleCommand fl u t st).2).rsvps = st.rsvps := by
  rcases handleCommand_shape fl u t st with h | ⟨s, h, _⟩ <;> rw [h]

theorem handleCommand_blessings (fl : DbFlags) (u t : String) (st : St) :
    ((handleCommand fl u t st).2).blessings = st.blessings := by
  rcases handleCommand_shape fl u t st with h | ⟨s, h, _⟩ <;> rw [h]

theorem handleCommand_sessions_other (fl : DbFlags) (u t : String) (st : St)
    (u' : String) (hne : u' ≠ u) :
    lookupK u' ((handleCommand fl u t st).2).sessions =
      lookupK u' st.sessions := by
  rcases handleCommand_shape fl u t st with h | ⟨s, h, _⟩
  · rw [h]
  · rw [h]
    exact lookupK_mapSet_ne _ _ hne

theorem handleCommand_sessions_none (fl : DbFlags) (u t : String) (st : St)
    (u' : String) (h : lookupK u' st.sessions = none) :
    lookupK u' ((handleCommand fl u t st).2).sessions = none ∨
      (u' = u ∧ isFlowStart t) := by
  rcases handleCommand_shape fl u t st with hsh | ⟨s, hsh, hf⟩
  · rw [hsh]
    exact Or.inl h
  · rw [hsh]
    by_cases hu : u' = u
    · exact Or.inr ⟨hu, hf⟩
    · exact Or.inl (by
        show lookupK u' (mapSet u s st.sessions) = none
        rw [lookupK_mapSet_ne _ _ hu]
        exact h)

set_option maxHeartbeats 800000 in
theorem handleMessage_session_text (fl : DbFlags) (st : St) (u tx : String)
    (sess : Session) (h : lookupK u st.sessions = some sess) :
    handleMessage fl u MType.text tx st =
      stepHandle fl u sess (normalizeText tx) st := by
  unfold handleMessage stepHandle
  simp only [h]
  cases hs : sess.step <;> simp [hs]

theorem handleEvent_session_text (fl : DbFlags) (st : St) (u t : String)
    (sess : Session) (h : lookupK u st.sessions = some sess) :
    handleEvent fl (textEvent u t) st =
      stepHandle fl u sess (normalizeText t) st :=
  handleMessage_session_text fl st u t sess h

set_option maxHeartbeats 1600000 in
theorem handleMessage_cases (fl : DbFlags) (u0 : String) (mt : MType)
    (tx : String) (st : St) :
    (handleMessage fl u0 mt tx st).2 = st ∨
      (handleMessage fl u0 mt tx st).2 =
        { st with sessions := mapDelete u0 st.sessions } ∨
      (∃ s : Session, (handleMessage fl u0 mt tx st).2 =
          { st with sessions := mapSet u0 s st.sessions } ∧
          (lookupK u0 st.sessions ≠ none ∨
            (mt = MType.text ∧ isFlowStart (normalizeText tx)))) ∨
      (∃ nm n, (handleMessage fl u0 mt tx st).2 =
          { st with sessions := mapDelete u0 st.sessions,
                    rsvps := upsertRsvp u0 nm n st.rsvps }) ∨
      (∃ msg, (handleMessage fl u0 mt tx st).2 =
          { st with sessions := mapDelete u0 st.sessions,
                    blessings := st.blessings ++ [(u0, msg)] }) := by
  cases hl : lookupK u0 st.sessions with
  | none =>
    unfold handleMessage
    simp only [hl]
    cases mt with
    | text =>
      rcases handleCommand_shape fl u0 (normalizeText tx) st with h | ⟨s, h, hf⟩
      · exact Or.inl h
      · exact Or.inr (Or.inr (Or.inl ⟨s, h, Or.inr ⟨rfl, hf⟩⟩))
    | image => exact Or.inl rfl
    | file => exact Or.inl rfl
    | other => exact Or.inl rfl
  | some sess =>
    obtain ⟨stp, fn⟩ := sess
    unfold handleMessage
    simp only [hl]
    cases stp with
    | ASK_GIFT_SLIP =>
      cases mt with
      | image => exact Or.inr (Or.inl rfl)
      | file => exact Or.inr (Or.inl rfl)
      | text => exact Or.inl rfl
      | other => exact Or.inl rfl
    | ASK_NAME =>
      cases mt with
      | text =>
        by_cases hlen : (normalizeText tx).length < 2
        · exact Or.inl (by simp [hlen])
        · exact Or.inr (Or.inr (Or.inl
            ⟨⟨Step.ASK_COUNT, normalizeText tx⟩, by simp [hlen],
             Or.inl (fun hc => Option.noConfusion hc)⟩))
      | image => exact Or.inl rfl
      | file => exact Or.inl rfl
      | other => exact Or.inl rfl
    | ASK_COUNT =>
      cases mt with
      | text =>
        cases hn : isNumberLike (normalizeText tx) with
        | none => exact Or.inl rfl
        | some n =>
          by_cases hr : n < 1 ∨ 50 < n
          · have hr0 : n = 0 ∨ 50 < n := by omega
            exact Or.inl (by simp [hr0])
          · have hr0 : ¬ (n = 0 ∨ 50 < n) := by omega
            by_cases huf : fl.upsertFails = true
            · exact Or.inl (by simp [hr0, huf])
            · exact Or.inr (Or.inr (Or.inr (Or.inl
                ⟨fn, n, by simp [hr0, huf]⟩)))
      | image => exact Or.inl rfl
      | file => exact Or.inl rfl
      | other => exact Or.inl rfl
    | ASK_BLESSING =>
      cases mt with
      | text =>
        by_cases hlen : (normalizeText tx).length < 2
        · exact Or.inl (by simp [hlen])
        · by_cases hif : fl.insertFails = true
          · exact Or.inl (by simp [hlen, hif])
          · exact Or.inr (Or.inr (Or.inr (Or.inr
              ⟨normalizeText tx, by simp [hlen, hif]⟩)))
      | image => exact Or.inl rfl
      | file => exact Or.inl rfl
      | other => exact Or.inl rfl

set_option maxHeartbeats 800000 in
theorem memCommand_shape (uid : Option String) (t : String) (st : MemSt) :
    (memCommand uid t st).2 = st ∨
      ∃ u s, uid = some u ∧ s.step ≠ Step.ASK_GIFT_SLIP ∧
        (memCommand uid t st).2 =
          { st with sessions := mapSet u s st.sessions } ∧ memFlowStart t := by
  unfold memCommand
  by_cases h1 : jsIncludes t "รายละเอียดงาน" = true
  · rw [if_pos h1]
    exact Or.inl rfl
  rw [if_neg h1]
  by_cases h2 : jsIncludes t "การเดินทาง" = true
  · rw [if_pos h2]
    exact Or.inl rfl
  rw [if_neg h2]
  by_cases h3 : jsIncludes t "คำอวยพร" = true ∨ jsIncludes t "ฝากคำอวยพร" = true
  · rw [if_pos h3]
    exact Or.inl rfl
  rw [if_neg h3]
  by_cases h4 : jsIncludes t "ยืนยันมาร่วมงาน" = true
  · rw [if_pos h4]
    exact Or.inl rfl
  rw [if_neg h4]
  by_cases h5 : t = "อวยพร" ∨ jsIncludes t "เขียนอวยพร" = true
  · rw [if_pos h5]
    cases uid with
    | none => exact Or.inl rfl
    | some u =>
      exact Or.inr ⟨u, ⟨.ASK_BLESSING, ""⟩, rfl, by decide, rfl, Or.inl h5⟩
  rw [if_neg h5]
  by_cases h6 : memStartConfirm t
  · rw [if_pos h6]
    cases uid with
    | none => exact Or.inl rfl
    | some u =>
      cases hr : lookupK u st.rsvps with
      | some r => exact Or.inl (by simp [hr])
      | none =>
        exact Or.inr ⟨u, ⟨.ASK_NAME, ""⟩, rfl, by decide, by simp [hr],
          Or.inr (Or.inl h6)⟩
  rw [if_neg h6]
  by_cases h7 : jsIncludes t "แก้ไขการยืนยัน" = true
  · rw [if_pos h7]
    cases uid with
    | none => exact Or.inl rfl
    | some u =>
      exact Or.inr ⟨u, ⟨.ASK_NAME, ""⟩, rfl, by decide, rfl, Or.inr (Or.inr h7)⟩
  rw [if_neg h7]
  exact Or.inl rfl

set_option maxHeartbeats 1600000 in
theorem memMessage_cases (u0 tx : String) (st : MemSt) :
    (memMessage u0 tx st).2 = st ∨
      (∃ s : Session, s.step ≠ Step.ASK_GIFT_SLIP ∧
          (memMessage u0 tx st).2 =
          { st with sessions := mapSet u0 s st.sessions } ∧
          (lookupK u0 st.sessions ≠ none ∨ memFlowStart (normalizeText tx))) ∨
      (∃ r : MemRsvp, (memMessage u0 tx st).2 =
          { st with rsvps := mapSet u0 r st.rsvps,
                    sessions := mapDelete u0 st.sessions }) ∨
      (∃ msgs, (memMessage u0 tx st).2 =
          { st with blessings := mapSet u0 msgs st.blessings,
                    sessions := mapDelete u0 st.sessions }) := by
  cases hl : lookupK u0 st.sessions with
  | none =>
    unfold memMessage
    simp only [hl]
    rcases memCommand_shape (some u0) (normalizeText tx) st
      with h | ⟨u, s, huid, hstep, h, hf⟩
    · exact Or.inl h
    · cases Option.some.inj huid
      exact Or.inr (Or.inl ⟨s, hstep, h, Or.inr hf⟩)
  | some sess =>
    obtain ⟨stp, fn⟩ := sess
    unfold memMessage
    simp only [hl]
    cases stp with
    | ASK_NAME =>
      by_cases hlen : (normalizeText tx).length < 3
      · exact Or.inl (by simp [hlen])
      · exact Or.inr (Or.inl
          ⟨⟨Step.ASK_COUNT, normalizeText tx⟩, fun hc => Step.noConfusion hc,
           by simp [hlen],
           Or.inl (fun hc => Option.noConfusion hc)⟩)
    | ASK_COUNT =>
      cases hn : parseIntJs (normalizeText tx) with
      | none => exact Or.inl rfl
      | some n =>
        by_cases hr : isNumberInRange n 1 20 = true
        · exact Or.inr (Or.inr (Or.inl ⟨⟨fn, n.toNat⟩, by simp [hr]⟩))
        · exact Or.inl (by simp [hr])
    | ASK_BLESSING =>
      by_cases hlen : (normalizeText tx).length < 2
      · exact Or.inl (by simp [hlen])
      · exact Or.inr (Or.inr (Or.inr
          ⟨(lookupK u0 st.blessings).getD [] ++ [normalizeText tx],
           by simp [hlen]⟩))
    | ASK_GIFT_SLIP =>
      rcases memCommand_shape (some u0) (normalizeText tx) st
        with h | ⟨u, s, huid, hstep, h, hf⟩
      · exact Or.inl (by simpa using h)
      · cases Option.some.inj huid
        exact Or.inr (Or.inl ⟨s, hstep, by simpa using h, Or.inr hf⟩)

theorem handleEvent_sessions_none (fl : DbFlags) (ev : Event) (st : St)
    (u : String) (h : lookupK u st.sessions = none) :
    lookupK u ((handleEvent fl ev st).2).sessions = none ∨
      (ev.isMessage = true ∧ ev.userId = some u ∧ ev.mtype = MType.text ∧
        isFlowStart (normalizeText ev.mtext)) := by
  obtain ⟨im, mt, tx, uo⟩ := ev
  cases im with
  | false => exact Or.inl h
  | true =>
    cases uo with
    | none => exact Or.inl h
    | some u0 =>
      have hbridge : handleEvent fl ⟨true, mt, tx, some u0⟩ st =
          handleMessage fl u0 mt tx st := rfl
      rw [hbridge]
      have hdel : lookupK u (mapDelete u0 st.sessions) = none := by
        by_cases hu : u = u0
        · subst hu
          exact lookupK_mapDelete_self u st.sessions
        · rw [lookupK_mapDelete_ne _ hu]
          exact h
      rcases handleMessage_cases fl u0 mt tx st
        with hc | hc | ⟨s, hc, hcond⟩ | ⟨nm, n, hc⟩ | ⟨msg, hc⟩
      · rw [hc]
        exact Or.inl h
      · rw [hc]
        exact Or.inl hdel
      · rw [hc]
        by_cases hu : u = u0
        · subst hu
          rcases hcond with hne | ⟨hmt, hf⟩
          · exact absurd h hne
          · exact Or.inr ⟨rfl, rfl, hmt, hf⟩
        · exact Or.inl ((lookupK_mapSet_ne _ _ hu).trans h)
      · rw [hc]
        exact Or.inl hdel
      · rw [hc]
        exact Or.inl hdel

theorem memHandleEvent_sessions_none (ev : Event) (st : MemSt)
    (u : String) (h : lookupK u st.sessions = none) :
    lookupK u ((memHandleEvent ev st).2).sessions = none ∨
      (ev.userId = some u ∧ ev.mtype = MType.text ∧
        memFlowStart (normalizeText ev.mtext)) := by
  obtain ⟨im, mt, tx, uo⟩ := ev
  cases im with
  | false => exact Or.inl h
  | true =>
    cases mt with
    | image => exact Or.inl h
    | file => exact Or.inl h
    | other => exact Or.inl h
    | text =>
      cases uo with
      | none =>
        have hbridge : memHandleEvent ⟨true, MType.text, tx, none⟩ st =
            memCommand none (normalizeText tx) st := rfl
        rw [hbridge]
        rcases memCommand_shape none (normalizeText tx) st
          with hc | ⟨v, s, huid, hstep, hc, hf⟩
        · rw [hc]
          exact Or.inl h
        · exact Option.noConfusion huid
      | some u0 =>
        have hbridge : memHandleEvent ⟨true, MType.text, tx, some u0⟩ st =
            memMessage u0 tx st := rfl
        rw [hbridge]
        have hdel : lookupK u (mapDelete u0 st.sessions) = none := by
          by_cases hu : u = u0
          · subst hu
            exact lookupK_mapDelete_self u st.sessions
          · rw [lookupK_mapDelete_ne _ hu]
            exact h
        rcases memMessage_cases u0 tx st
          with hc | ⟨s, hstep, hc, hcond⟩ | ⟨r, hc⟩ | ⟨msgs, hc⟩
        · rw [hc]
          exact Or.inl h
        · rw [hc]
          by_cases hu : u = u0
          · subst hu
            rcases hcond with hne | hf
            · exact absurd h hne
            · exact Or.inr ⟨rfl, rfl, hf⟩
          · exact Or.inl ((lookupK_mapSet_ne _ _ hu).trans h)
        · rw [hc]
          exact Or.inl hdel
        · rw [hc]
          exact Or.inl hdel

theorem memCommand_rsvps (uid : Option String) (t : String) (st : MemSt) :
    ((memCommand uid t st).2).rsvps = st.rsvps := by
  rcases memCommand_shape uid t st with h | ⟨u, s, _, _, h, _⟩ <;> rw [h]

set_option maxHeartbeats 800000 in
theorem memMessage_session_text (u tx : String) (mst : MemSt)
    (sess : Session) (h : lookupK u mst.sessions = some sess) :
    memMessage u tx mst = memStepHandle u sess (normalizeText tx) mst := by
  unfold memMessage memStepHandle
  simp only [h]
  cases hs : sess.step <;> simp [hs]

theorem memHandleEvent_no_gift (mst : MemSt)
    (hinv : ∀ v s, lookupK v mst.sessions = some s →
      s.step ≠ Step.ASK_GIFT_SLIP) (ev : Event) :
    ∀ v s, lookupK v ((memHandleEvent ev mst).2).sessions = some s →
      s.step ≠ Step.ASK_GIFT_SLIP := by
  obtain ⟨im, mt, tx, uo⟩ := ev
  cases im with
  | false => exact hinv
  | true =>
    cases mt with
    | image => exact hinv
    | file => exact hinv
    | other => exact hinv
    | text =>
      cases uo with
      | none =>
        have hb : memHandleEvent ⟨true, MType.text, tx, none⟩ mst =
            memCommand none (normalizeText tx) mst := rfl
        rw [hb]
        rcases memCommand_shape none (normalizeText tx) mst
          with hc | ⟨v', s', huid, _, _, _⟩
        · rw [hc]
          exact hinv
        · exact Option.noConfusion huid
      | some u0 =>
        have hb : memHandleEvent ⟨true, MType.text, tx, some u0⟩ mst =
            memMessage u0 tx mst := rfl
        rw [hb]
        have hdel : ∀ v s, lookupK v (mapDelete u0 mst.sessions) = some s →
            s.step ≠ Step.ASK_GIFT_SLIP := by
          intro v s hv
          by_cases hvu : v = u0
          · subst hvu
            rw [lookupK_mapDelete_self] at hv
            exact Option.noConfusion hv
          · rw [lookupK_mapDelete_ne _ hvu] at hv
            exact hinv v s hv
        rcases memMessage_cases u0 tx mst
          with hc | ⟨s', hstep, hc, _⟩ | ⟨r, hc⟩ | ⟨msgs, hc⟩
        · rw [hc]
          exact hinv
        · rw [hc]
          intro v s hv
          have hv' : lookupK v (mapSet u0 s' mst.sessions) = some s := hv
          by_cases hvu : v = u0
          · subst hvu
            rw [lookupK_mapSet_self] at hv'
            cases Option.some.inj hv'
            exact hstep
          · rw [lookupK_mapSet_ne _ _ hvu] at hv'
            exact hinv v s hv'
        · rw [hc]
          exact hdel
        · rw [hc]
          exact hdel

theorem memHandleEvent_rsvps_nodup (ev : Event) (mst : MemSt)
    (h : (keys mst.rsvps).Nodup) :
    (keys ((memHandleEvent ev mst).2).rsvps).Nodup := by
  obtain ⟨im, mt, tx, uo⟩ := ev
  cases im with
  | false => exact h
  | true =>
    cases mt with
    | image => exact h
    | file => exact h
    | other => exact h
    | text =>
      cases uo with
      | none =>
        have hb : memHandleEvent ⟨true, MType.text, tx, none⟩ mst =
            memCommand none (normalizeText tx) mst := rfl
        rw [hb]
        have hr := memCommand_rsvps none (normalizeText tx) mst
        rw [hr]
        exact h
      | some u0 =>
        have hb : memHandleEvent ⟨true, MType.text, tx, some u0⟩ mst =
            memMessage u0 tx mst := rfl
        rw [hb]
        rcases memMessage_cases u0 tx mst
          with hc | ⟨s, _, hc, _⟩ | ⟨r, hc⟩ | ⟨msgs, hc⟩
        · rw [hc]
          exact h
        · rw [hc]
          exact h
        · rw [hc]
          exact nodup_keys_mapSet u0 r h
        · rw [hc]
          exact h

theorem handleEvent_rsvps_nodup (fl : DbFlags) (ev : Event) (st : St)
    (h : (keys st.rsvps).Nodup) :
    (keys ((handleEvent fl ev st).2).rsvps).Nodup := by
  obtain ⟨im, mt, tx, uo⟩ := ev
  cases im with
  | false => exact h
  | true =>
    cases uo with
    | none => exact h
    | some u0 =>
      have hbridge : handleEvent fl ⟨true, mt, tx, some u0⟩ st =
          handleMessage fl u0 mt tx st := rfl
      rw [hbridge]
      rcases handleMessage_cases fl u0 mt tx st
        with hc | hc | ⟨s, hc, _⟩ | ⟨nm, n, hc⟩ | ⟨msg, hc⟩
      · rw [hc]
        exact h
      · rw [hc]
        exact h
      · rw [hc]
        exact h
      · rw [hc]
        exact nodup_keys_mapSet u0 ⟨nm, n⟩ h
      · rw [hc]
        exact h

/-! ### Auxiliary lemmas for digit extraction -/

theorem data_append (s t : String) : (s ++ t).data = s.data ++ t.data := by
  cases s
  cases t
  rfl

theorem digitRunFrom_append (l₁ l₂ : List Char)
    (h : ∀ c ∈ l₁, c.isDigit = false) :
    digitRunFrom (l₁ ++ l₂) = digitRunFrom l₂ := by
  induction l₁ with
  | nil => rfl
  | cons c cs ih =>
    have hc : c.isDigit = false := h c (List.mem_cons_self c cs)
    simp only [List.cons_append, digitRunFrom, hc, Bool.false_eq_true,
      if_false]
    exact ih (fun d hd => h d (List.mem_cons_of_mem c hd))

/-! ### Claim theorems -/

/-- C1: session priority over command routing.  Supabase variant: with any
active session (whatever its step) a text message is handled exactly by
that step's transition of the conversation state machine (`stepHandle`)
and never dispatched to the Command Router, even if the text equals a
command phrase.  In-memory variant: a text message with an active session
is handled by `memStepHandle`, whose three arms are the variant's step
transitions; its only command-routing arm is the source's fall-through on
a step outside the three, and the last conjunct proves that arm
unreachable: no event introduces an `ASK_GIFT_SLIP` session into a state
that has none (as the initial empty session map does), so in every
reachable in-memory state, too, mid-flow text is treated as the step's
answer and never as a command. -/
theorem c1_session_priority (fl : DbFlags) (st : St) (mst : MemSt)
    (u t : String) (sess msess : Session)
    (h : lookupK u st.sessions = some sess)
    (hm : lookupK u mst.sessions = some msess) :
    handleEvent fl (textEvent u t) st =
      stepHandle fl u sess (normalizeText t) st ∧
    memHandleEvent (textEvent u t) mst =
      memStepHandle u msess (normalizeText t) mst ∧
    (∀ (mst' : MemSt),
      (∀ v s, lookupK v mst'.sessions = some s →
        s.step ≠ Step.ASK_GIFT_SLIP) →
      ∀ (ev : Event) v s,
        lookupK v ((memHandleEvent ev mst').2).sessions = some s →
        s.step ≠ Step.ASK_GIFT_SLIP) := by
  refine ⟨handleEvent_session_text fl st u t sess h, ?_, ?_⟩
  · have hb : memHandleEvent (textEvent u t) mst = memMessage u t mst := rfl
    rw [hb]
    exact memMessage_session_text u t mst msess hm
  · intro mst' hinv ev
    exact memHandleEvent_no_gift mst' hinv ev

/-- Witness for C1: mid-flow in ASK_NAME the command phrase "อวยพร" is
treated as the name answer by the step transition, in both variants. -/
theorem c1_session_priority_witness :
    lookupK "U" [("U", (⟨Step.ASK_NAME, ""⟩ : Session))] =
      some ⟨Step.ASK_NAME, ""⟩ ∧
    handleEvent {} (textEvent "U" "อวยพร")
        ⟨[("U", ⟨Step.ASK_NAME, ""⟩)], [], []⟩ =
      stepHandle {} "U" ⟨Step.ASK_NAME, ""⟩ (normalizeText "อวยพร")
        ⟨[("U", ⟨Step.ASK_NAME, ""⟩)], [], []⟩ ∧
    memHandleEvent (textEvent "U" "อวยพร")
        ⟨[("U", ⟨Step.ASK_NAME, ""⟩)], [], []⟩ =
      memStepHandle "U" ⟨Step.ASK_NAME, ""⟩ (normalizeText "อวยพร")
        ⟨[("U", ⟨Step.ASK_NAME, ""⟩)], [], []⟩ :=
  ⟨rfl,
   (c1_session_priority {} ⟨[("U", ⟨Step.ASK_NAME, ""⟩)], [], []⟩
      ⟨[("U", ⟨Step.ASK_NAME, ""⟩)], [], []⟩ "U" "อวยพร"
      ⟨Step.ASK_NAME, ""⟩ ⟨Step.ASK_NAME, ""⟩ rfl rfl).1,
   (c1_session_priority {} ⟨[("U", ⟨Step.ASK_NAME, ""⟩)], [], []⟩
      ⟨[("U", ⟨Step.ASK_NAME, ""⟩)], [], []⟩ "U" "อวยพร"
      ⟨Step.ASK_NAME, ""⟩ ⟨Step.ASK_NAME, ""⟩ rfl rfl).2.1⟩

/-- C3: when a Supabase operation fails mid-turn (upsert at ASK_COUNT,
insert at ASK_BLESSING, select at begin-confirmation), the session map and
stores are left untouched — but no reply at all is produced: the thrown
error propagates out of `handleEvent` (modelled `Except.error`), and the
webhook route answers HTTP 500 with no user-visible failure notice. -/
theorem c3_persistence_failure :
    handleEvent ⟨false, true, false⟩ (textEvent "U" "2")
        ⟨[("U", ⟨Step.ASK_COUNT, "A"⟩)], [], []⟩ =
      (.error (), ⟨[("U", ⟨Step.ASK_COUNT, "A"⟩)], [], []⟩) ∧
    handleEvent ⟨false, false, true⟩ (textEvent "U" "ขอให้มีความสุข")
        ⟨[("U", ⟨Step.ASK_BLESSING, ""⟩)], [], []⟩ =
      (.error (), ⟨[("U", ⟨Step.ASK_BLESSING, ""⟩)], [], []⟩) ∧
    handleEvent ⟨true, false, false⟩ (textEvent "U" "ยืนยัน เจอกันแน่นอน")
        ⟨[], [], []⟩ =
      (.error (), ⟨[], [], []⟩) :=
  ⟨by decide, by decide, by decide⟩

/-- C5: a session appears for a user only through one of the flow-start
commands; in both variants, any event processed while the user has no
session either leaves that user sessionless or is a text message from that
user matching a flow-start condition. -/
theorem c5_session_creation (fl : DbFlags) (ev : Event) (st : St)
    (mst : MemSt) (u : String)
    (h : lookupK u st.sessions = none) (hm : lookupK u mst.sessions = none) :
    (lookupK u ((handleEvent fl ev st).2).sessions = none ∨
      (ev.isMessage = true ∧ ev.userId = some u ∧ ev.mtype = MType.text ∧
        isFlowStart (normalizeText ev.mtext))) ∧
    (lookupK u ((memHandleEvent ev mst).2).sessions = none ∨
      (ev.userId = some u ∧ ev.mtype = MType.text ∧
        memFlowStart (normalizeText ev.mtext))) :=
  ⟨handleEvent_sessions_none fl ev st u h,
   memHandleEvent_sessions_none ev mst u hm⟩

/-- Witness for C5: the non-command text "hello" from a sessionless user
creates no session in either variant. -/
theorem c5_session_creation_witness :
    lookupK "U" ([] : SMap Session) = none ∧
    ((lookupK "U" ((handleEvent {} (textEvent "U" "hello")
        ⟨[], [], []⟩).2).sessions = none ∨
      ((textEvent "U" "hello").isMessage = true ∧
        (textEvent "U" "hello").userId = some "U" ∧
        (textEvent "U" "hello").mtype = MType.text ∧
        isFlowStart (normalizeText (textEvent "U" "hello").mtext))) ∧
     (lookupK "U" ((memHandleEvent (textEvent "U" "hello")
        ⟨[], [], []⟩).2).sessions = none ∨
      ((textEvent "U" "hello").userId = some "U" ∧
        (textEvent "U" "hello").mtype = MType.text ∧
        memFlowStart (normalizeText (textEvent "U" "hello").mtext)))) :=
  ⟨rfl, c5_session_creation {} (textEvent "U" "hello")
    ⟨[], [], []⟩ ⟨[], [], []⟩ "U" rfl rfl⟩

/-- C7: ASK_GIFT_SLIP transitions — an image or file deletes the session
and acknowledges without persisting anything; text re-prompts with the
session unchanged; any other message type is silently ignored. -/
theorem c7_gift_slip (fl : DbFlags) (ev : Event) (st : St) (u fn : String)
    (him : ev.isMessage = true) (hu : ev.userId = some u)
    (h : lookupK u st.sessions = some ⟨Step.ASK_GIFT_SLIP, fn⟩) :
    ((ev.mtype = MType.image ∨ ev.mtype = MType.file) →
      handleEvent fl ev st = (.ok (some .giftThanks),
        { st with sessions := mapDelete u st.sessions })) ∧
    (ev.mtype = MType.text →
      handleEvent fl ev st = (.ok (some .giftReprompt), st)) ∧
    (ev.mtype = MType.other →
      handleEvent fl ev st = (.ok none, st)) := by
  obtain ⟨im, mt, tx, uo⟩ := ev
  simp only at him hu
  subst him
  subst hu
  have hbridge : handleEvent fl ⟨true, mt, tx, some u⟩ st =
      handleMessage fl u mt tx st := rfl
  rw [hbridge]
  unfold handleMessage
  simp only [h]
  refine ⟨?_, ?_, ?_⟩
  · rintro (hmt | hmt) <;> subst hmt <;> simp
  · intro hmt
    subst hmt
    simp
  · intro hmt
    subst hmt
    simp

/-- Witness for C7 at a concrete state: an image clears the session, a
text re-prompts. -/
theorem c7_gift_slip_witness :
    handleEvent {} ⟨true, MType.image, "", some "U"⟩
        ⟨[("U", ⟨Step.ASK_GIFT_SLIP, ""⟩)], [], []⟩ =
      (.ok (some .giftThanks),
        { sessions := mapDelete "U" [("U", ⟨Step.ASK_GIFT_SLIP, ""⟩)],
          rsvps := [], blessings := [] }) ∧
    handleEvent {} (textEvent "U" "โอนแล้ว")
        ⟨[("U", ⟨Step.ASK_GIFT_SLIP, ""⟩)], [], []⟩ =
      (.ok (some .giftReprompt),
        ⟨[("U", ⟨Step.ASK_GIFT_SLIP, ""⟩)], [], []⟩) :=
  ⟨(c7_gift_slip {} ⟨true, MType.image, "", some "U"⟩
      ⟨[("U", ⟨Step.ASK_GIFT_SLIP, ""⟩)], [], []⟩ "U" "" rfl rfl rfl).1
      (Or.inl rfl),
   (c7_gift_slip {} (textEvent "U" "โอนแล้ว")
      ⟨[("U", ⟨Step.ASK_GIFT_SLIP, ""⟩)], [], []⟩ "U" "" rfl rfl rfl).2.1 rfl⟩

/-- C8: confirmation uniqueness and upsert idempotence in both variants —
repeating an identical upsert (Supabase `upsertRsvp`, in-memory
`rsvpStore.set` = `mapSet`) is a no-op, the stored row always reflects the
latest call, a second upsert never adds a row, key-uniqueness gives at
most one record per user, and both `handleEvent` and `memHandleEvent`
preserve key-uniqueness of their confirmation stores. -/
theorem c8_upsert_idempotent :
    (∀ (m : SMap Rsvp) (u nm : String) (c : Nat),
      upsertRsvp u nm c (upsertRsvp u nm c m) = upsertRsvp u nm c m) ∧
    (∀ (m : SMap Rsvp) (u nm : String) (c : Nat),
      lookupK u (upsertRsvp u nm c m) = some ⟨nm, c⟩) ∧
    (∀ (m : SMap Rsvp) (u nm₁ nm₂ : String) (c₁ c₂ : Nat),
      (upsertRsvp u nm₂ c₂ (upsertRsvp u nm₁ c₁ m)).length =
        (upsertRsvp u nm₁ c₁ m).length ∧
      lookupK u (upsertRsvp u nm₂ c₂ (upsertRsvp u nm₁ c₁ m)) =
        some ⟨nm₂, c₂⟩) ∧
    (∀ (m : SMap Rsvp) (u : String), (keys m).Nodup → countKey u m ≤ 1) ∧
    (∀ (fl : DbFlags) (ev : Event) (st : St), (keys st.rsvps).Nodup →
      (keys ((handleEvent fl ev st).2).rsvps).Nodup) ∧
    (∀ (m : SMap MemRsvp) (u : String) (r : MemRsvp),
      mapSet u r (mapSet u r m) = mapSet u r m) ∧
    (∀ (m : SMap MemRsvp) (u : String) (r₁ r₂ : MemRsvp),
      (mapSet u r₂ (mapSet u r₁ m)).length = (mapSet u r₁ m).length ∧
      lookupK u (mapSet u r₂ (mapSet u r₁ m)) = some r₂) ∧
    (∀ (m : SMap MemRsvp) (u : String), (keys m).Nodup → countKey u m ≤ 1) ∧
    (∀ (ev : Event) (mst : MemSt), (keys mst.rsvps).Nodup →
      (keys ((memHandleEvent ev mst).2).rsvps).Nodup) := by
  refine ⟨?_, ?_, ?_, ?_, ?_, ?_, ?_, ?_, ?_⟩
  · intro m u nm c
    exact mapSet_idem u ⟨nm, c⟩ m
  · intro m u nm c
    exact lookupK_mapSet_self u ⟨nm, c⟩ m
  · intro m u nm₁ nm₂ c₁ c₂
    constructor
    · show (mapSet u (⟨nm₂, c₂⟩ : Rsvp) (mapSet u ⟨nm₁, c₁⟩ m)).length =
        (mapSet u (⟨nm₁, c₁⟩ : Rsvp) m).length
      exact length_mapSet_mapSet u ⟨nm₁, c₁⟩ ⟨nm₂, c₂⟩ m
    · exact lookupK_mapSet_self u ⟨nm₂, c₂⟩ (upsertRsvp u nm₁ c₁ m)
  · intro m u hm
    exact countKey_le_one_of_nodup u hm
  · intro fl ev st hm
    exact handleEvent_rsvps_nodup fl ev st hm
  · intro m u r
    exact mapSet_idem u r m
  · intro m u r₁ r₂
    exact ⟨length_mapSet_mapSet u r₁ r₂ m,
      lookupK_mapSet_self u r₂ (mapSet u r₁ m)⟩
  · intro m u hm
    exact countKey_le_one_of_nodup u hm
  · intro ev mst hm
    exact memHandleEvent_rsvps_nodup ev mst hm

/-- Witness for C8 at concrete inputs: a populated store with distinct
keys has at most one row per user, and uniqueness survives an event, in
both variants. -/
theorem c8_upsert_idempotent_witness :
    countKey "U" [("U", (⟨"A", 1⟩ : Rsvp)), ("V", ⟨"B", 2⟩)] ≤ 1 ∧
    (keys ((handleEvent {} (textEvent "U" "2")
      ⟨[("U", ⟨Step.ASK_COUNT, "A"⟩)], [("U", ⟨"A", 1⟩)], []⟩).2).rsvps).Nodup ∧
    (keys ((memHandleEvent (textEvent "U" "2")
      ⟨[("U", ⟨Step.ASK_COUNT, "A"⟩)], [("U", ⟨"A", 1⟩)], []⟩).2).rsvps).Nodup :=
  ⟨c8_upsert_idempotent.2.2.2.1 [("U", ⟨"A", 1⟩), ("V", ⟨"B", 2⟩)] "U"
      (by decide),
   c8_upsert_idempotent.2.2.2.2.1 {} (textEvent "U" "2")
      ⟨[("U", ⟨Step.ASK_COUNT, "A"⟩)], [("U", ⟨"A", 1⟩)], []⟩ (by decide),
   c8_upsert_idempotent.2.2.2.2.2.2.2.2 (textEvent "U" "2")
      ⟨[("U", ⟨Step.ASK_COUNT, "A"⟩)], [("U", ⟨"A", 1⟩)], []⟩ (by decide)⟩

/-- C10: silent drop of non-text events outside the gift-slip step — a
message event from an identified user whose type is not text, and which is
not an image/file arriving in ASK_GIFT_SLIP, yields no reply and leaves
the state untouched; the in-memory variant drops every non-text message. -/
theorem c10_silent_drop (fl : DbFlags) (ev : Event) (st : St)
    (mst : MemSt) (u : String) (him : ev.isMessage = true)
    (hu : ev.userId = some u) (hmt : ev.mtype ≠ MType.text)
    (hgift : ∀ sess, lookupK u st.sessions = some sess →
      sess.step = Step.ASK_GIFT_SLIP →
      ev.mtype ≠ MType.image ∧ ev.mtype ≠ MType.file) :
    handleEvent fl ev st = (.ok none, st) ∧
    memHandleEvent ev mst = (none, mst) := by
  obtain ⟨im, mt, tx, uo⟩ := ev
  simp only at him hu hmt hgift
  subst him
  subst hu
  constructor
  · have hbridge : handleEvent fl ⟨true, mt, tx, some u⟩ st =
        handleMessage fl u mt tx st := rfl
    rw [hbridge]
    cases hl : lookupK u st.sessions with
    | none =>
      unfold handleMessage
      simp only [hl]
      cases mt with
      | text => exact absurd rfl hmt
      | image => rfl
      | file => rfl
      | other => rfl
    | some sess =>
      obtain ⟨stp, fn⟩ := sess
      unfold handleMessage
      simp only [hl]
      cases stp with
      | ASK_GIFT_SLIP =>
        cases mt with
        | text => exact absurd rfl hmt
        | image => exact absurd rfl (hgift ⟨Step.ASK_GIFT_SLIP, fn⟩ hl rfl).1
        | file => exact absurd rfl (hgift ⟨Step.ASK_GIFT_SLIP, fn⟩ hl rfl).2
        | other => rfl
      | ASK_NAME =>
        cases mt with
        | text => exact absurd rfl hmt
        | image => rfl
        | file => rfl
        | other => rfl
      | ASK_COUNT =>
        cases mt with
        | text => exact absurd rfl hmt
        | image => rfl
        | file => rfl
        | other => rfl
      | ASK_BLESSING =>
        cases mt with
        | text => exact absurd rfl hmt
        | image => rfl
        | file => rfl
        | other => rfl
  · cases mt with
    | text => exact absurd rfl hmt
    | image => rfl
    | file => rfl
    | other => rfl

/-- Witness for C10: an image sent while in ASK_NAME is dropped without a
reply in the Supabase variant and in the in-memory variant. -/
theorem c10_silent_drop_witness :
    handleEvent {} ⟨true, MType.image, "", some "U"⟩
        ⟨[("U", ⟨Step.ASK_NAME, ""⟩)], [], []⟩ =
      (.ok none, ⟨[("U", ⟨Step.ASK_NAME, ""⟩)], [], []⟩) ∧
    memHandleEvent ⟨true, MType.image, "", some "U"⟩
        ⟨[("U", ⟨Step.ASK_NAME, ""⟩)], [], []⟩ =
      (none, ⟨[("U", ⟨Step.ASK_NAME, ""⟩)], [], []⟩) :=
  c10_silent_drop {} ⟨true, MType.image, "", some "U"⟩
    ⟨[("U", ⟨Step.ASK_NAME, ""⟩)], [], []⟩
    ⟨[("U", ⟨Step.ASK_NAME, ""⟩)], [], []⟩ "U" rfl rfl
    (fun hc => MType.noConfusion hc)
    (fun sess hs hstep => by
      have h2 : (⟨Step.ASK_NAME, ""⟩ : Session) = sess := Option.some.inj hs
      rw [← h2] at hstep
      exact absurd hstep (by decide))

/-- C2 (amended): ASK_COUNT transition.  In the Supabase variant the first
contiguous digit run is extracted (`isNumberLike`); if absent or outside
[1,50] the session and stores stay unchanged with a re-prompt, otherwise
the confirmation is upserted with the session's stored name and the count
and the session is deleted.  In the in-memory variant the text is parsed
with JS `parseInt` — a leading, optionally signed integer — with bounds
[1,20], and the record is stored and the session deleted on success. -/
theorem c2_ask_count (fl : DbFlags) (st : St) (mst : MemSt) (u t fn : String)
    (h : lookupK u st.sessions = some ⟨Step.ASK_COUNT, fn⟩)
    (hm : lookupK u mst.sessions = some ⟨Step.ASK_COUNT, fn⟩)
    (hfl : fl.upsertFails = false) :
    (isNumberLike (normalizeText t) = none →
      handleEvent fl (textEvent u t) st = (.ok (some .askCountReprompt), st)) ∧
    (∀ n, isNumberLike (normalizeText t) = some n → (n < 1 ∨ 50 < n) →
      handleEvent fl (textEvent u t) st = (.ok (some .askCountReprompt), st)) ∧
    (∀ n, isNumberLike (normalizeText t) = some n → 1 ≤ n → n ≤ 50 →
      handleEvent fl (textEvent u t) st =
        (.ok (some (.confirmDone fn n)),
          { st with sessions := mapDelete u st.sessions,
                    rsvps := upsertRsvp u fn n st.rsvps })) ∧
    (parseIntJs (normalizeText t) = none →
      memHandleEvent (textEvent u t) mst = (some .askCountReprompt, mst)) ∧
    (∀ n : Int, parseIntJs (normalizeText t) = some n → ¬ (1 ≤ n ∧ n ≤ 20) →
      memHandleEvent (textEvent u t) mst = (some .askCountReprompt, mst)) ∧
    (∀ n : Int, parseIntJs (normalizeText t) = some n → 1 ≤ n → n ≤ 20 →
      memHandleEvent (textEvent u t) mst =
        (some (.confirmDone fn n.toNat),
          { mst with rsvps := mapSet u ⟨fn, n.toNat⟩ mst.rsvps,
                     sessions := mapDelete u mst.sessions })) := by
  have hbridge : memHandleEvent (textEvent u t) mst = memMessage u t mst := rfl
  refine ⟨?_, ?_, ?_, ?_, ?_, ?_⟩
  · intro hn
    rw [handleEvent_session_text fl st u t ⟨Step.ASK_COUNT, fn⟩ h]
    unfold stepHandle
    simp [hn]
  · intro n hn hr
    have hr0 : n = 0 ∨ 50 < n := by omega
    rw [handleEvent_session_text fl st u t ⟨Step.ASK_COUNT, fn⟩ h]
    unfold stepHandle
    simp [hn, hr0]
  · intro n hn hge hle
    have hr0 : ¬ (n = 0 ∨ 50 < n) := by omega
    rw [handleEvent_session_text fl st u t ⟨Step.ASK_COUNT, fn⟩ h]
    unfold stepHandle
    simp [hn, hr0, hfl]
  · intro hn
    rw [hbridge]
    unfold memMessage
    simp [hm, hn]
  · intro n hn hnr
    have hrf : isNumberInRange n 1 20 = false := by
      simp only [isNumberInRange, Bool.and_eq_false_iff, decide_eq_false_iff_not]
      omega
    rw [hbridge]
    unfold memMessage
    simp [hm, hn, hrf]
  · intro n hn hge hle
    have hrt : isNumberInRange n 1 20 = true := by
      simp only [isNumberInRange, Bool.and_eq_true, decide_eq_true_eq]
      exact ⟨hge, hle⟩
    rw [hbridge]
    unfold memMessage
    simp [hm, hn, hrt]

/-- Witness for C2 at the spec's example: at ASK_COUNT, "2 คน" extracts 2
in the Supabase variant (record upserted, session cleared), and parses as
2 in the in-memory variant. -/
theorem c2_ask_count_witness :
    handleEvent {} (textEvent "U" "2 คน")
        ⟨[("U", ⟨Step.ASK_COUNT, "สมชาย ใจดี"⟩)], [], []⟩ =
      (.ok (some (.confirmDone "สมชาย ใจดี" 2)),
        { sessions := mapDelete "U" [("U", ⟨Step.ASK_COUNT, "สมชาย ใจดี"⟩)],
          rsvps := upsertRsvp "U" "สมชาย ใจดี" 2 [],
          blessings := [] }) ∧
    memHandleEvent (textEvent "U" "2 คน")
        ⟨[("U", ⟨Step.ASK_COUNT, "สมชาย ใจดี"⟩)], [], []⟩ =
      (some (.confirmDone "สมชาย ใจดี" 2),
        { rsvps := mapSet "U" ⟨"สมชาย ใจดี", 2⟩ [],
          sessions := mapDelete "U" [("U", ⟨Step.ASK_COUNT, "สมชาย ใจดี"⟩)],
          blessings := [] }) :=
  ⟨(c2_ask_count {} ⟨[("U", ⟨Step.ASK_COUNT, "สมชาย ใจดี"⟩)], [], []⟩
      ⟨[("U", ⟨Step.ASK_COUNT, "สมชาย ใจดี"⟩)], [], []⟩ "U" "2 คน"
      "สมชาย ใจดี" rfl rfl rfl).2.2.1 2 (by decide) (by decide) (by decide),
   (c2_ask_count {} ⟨[("U", ⟨Step.ASK_COUNT, "สมชาย ใจดี"⟩)], [], []⟩
      ⟨[("U", ⟨Step.ASK_COUNT, "สมชาย ใจดี"⟩)], [], []⟩ "U" "2 คน"
      "สมชาย ใจดี" rfl rfl rfl).2.2.2.2.2 2 (by decide) (by decide) (by decide)⟩

/-- C2 counterexample: the claim's digit-run extraction is false for the
in-memory variant — at ASK_COUNT the input "คน 2" (first digits preceded
by non-digits) is rejected by `parseInt` with the store left empty and the
session kept, instead of being accepted as count 2. -/
theorem c2_ask_count_counterexample :
    memHandleEvent (textEvent "U" "คน 2")
        ⟨[("U", ⟨Step.ASK_COUNT, "สมชาย ใจดี"⟩)], [], []⟩ =
      (some Reply.askCountReprompt,
        ⟨[("U", ⟨Step.ASK_COUNT, "สมชาย ใจดี"⟩)], [], []⟩) ∧
    ((memHandleEvent (textEvent "U" "คน 2")
        ⟨[("U", ⟨Step.ASK_COUNT, "สมชาย ใจดี"⟩)], [], []⟩).2).rsvps ≠
      [("U", ⟨"สมชาย ใจดี", 2⟩)] ∧
    lookupK "U" ((memHandleEvent (textEvent "U" "คน 2")
        ⟨[("U", ⟨Step.ASK_COUNT, "สมชาย ใจดี"⟩)], [], []⟩).2).sessions ≠
      none :=
  ⟨by decide, by decide, by decide⟩

/-- C4: begin-confirmation guard — with no active session, the command
"ยืนยัน เจอกันแน่นอน" replies with the existing record's name and count
and changes nothing when a Confirmation Record exists, and otherwise
creates an ASK_NAME session; in both variants. -/
theorem c4_begin_confirmation (fl : DbFlags) (st : St) (mst : MemSt)
    (u : String) (hfl : fl.getFails = false)
    (h : lookupK u st.sessions = none) (hm : lookupK u mst.sessions = none) :
    (∀ r : Rsvp, lookupK u st.rsvps = some r →
      handleEvent fl (textEvent u "ยืนยัน เจอกันแน่นอน") st =
        (.ok (some (.alreadyConfirmed r.full_name r.guests_count)), st)) ∧
    (lookupK u st.rsvps = none →
      handleEvent fl (textEvent u "ยืนยัน เจอกันแน่นอน") st =
        (.ok (some .askName),
          { st with sessions := mapSet u ⟨Step.ASK_NAME, ""⟩ st.sessions })) ∧
    (∀ r : MemRsvp, lookupK u mst.rsvps = some r →
      memHandleEvent (textEvent u "ยืนยัน เจอกันแน่นอน") mst =
        (some (.alreadyConfirmed r.fullName r.guestsCount), mst)) ∧
    (lookupK u mst.rsvps = none →
      memHandleEvent (textEvent u "ยืนยัน เจอกันแน่นอน") mst =
        (some .askName,
          { mst with sessions := mapSet u ⟨Step.ASK_NAME, ""⟩ mst.sessions })) := by
  have hbridge : handleEvent fl (textEvent u "ยืนยัน เจอกันแน่นอน") st =
      handleMessage fl u MType.text "ยืนยัน เจอกันแน่นอน" st := rfl
  have hbridge2 : memHandleEvent (textEvent u "ยืนยัน เจอกันแน่นอน") mst =
      memMessage u "ยืนยัน เจอกันแน่นอน" mst := rfl
  refine ⟨?_, ?_, ?_, ?_⟩
  · intro r hr
    rw [hbridge]
    unfold handleMessage
    simp only [h]
    show handleCommand fl u (normalizeText "ยืนยัน เจอกันแน่นอน") st = _
    unfold handleCommand
    rw [if_neg (by decide), if_neg (by decide), if_neg (by decide),
        if_neg (by decide), if_neg (by decide), if_pos (by decide),
        if_neg (by simp [hfl])]
    simp [hr]
  · intro hr
    rw [hbridge]
    unfold handleMessage
    simp only [h]
    show handleCommand fl u (normalizeText "ยืนยัน เจอกันแน่นอน") st = _
    unfold handleCommand
    rw [if_neg (by decide), if_neg (by decide), if_neg (by decide),
        if_neg (by decide), if_neg (by decide), if_pos (by decide),
        if_neg (by simp [hfl])]
    simp [hr]
  · intro r hr
    rw [hbridge2]
    unfold memMessage
    simp only [hm]
    show memCommand (some u) (normalizeText "ยืนยัน เจอกันแน่นอน") mst = _
    unfold memCommand
    rw [if_neg (by decide), if_neg (by decide), if_neg (by decide),
        if_neg (by decide), if_neg (by decide), if_pos (by decide)]
    simp [hr]
  · intro hr
    rw [hbridge2]
    unfold memMessage
    simp only [hm]
    show memCommand (some u) (normalizeText "ยืนยัน เจอกันแน่นอน") mst = _
    unfold memCommand
    rw [if_neg (by decide), if_neg (by decide), if_neg (by decide),
        if_neg (by decide), if_neg (by decide), if_pos (by decide)]
    simp [hr]

/-- Witness for C4: with a stored record the command replies with it and
leaves the state alone; with no record it opens an ASK_NAME session. -/
theorem c4_begin_confirmation_witness :
    handleEvent {} (textEvent "U" "ยืนยัน เจอกันแน่นอน")
        ⟨[], [("U", ⟨"B", 3⟩)], []⟩ =
      (.ok (some (.alreadyConfirmed "B" 3)), ⟨[], [("U", ⟨"B", 3⟩)], []⟩) ∧
    memHandleEvent (textEvent "U" "ยืนยัน เจอกันแน่นอน") ⟨[], [], []⟩ =
      (some .askName,
        { sessions := mapSet "U" ⟨Step.ASK_NAME, ""⟩ [], rsvps := [],
          blessings := [] }) :=
  ⟨(c4_begin_confirmation {} ⟨[], [("U", ⟨"B", 3⟩)], []⟩ ⟨[], [], []⟩ "U"
      rfl rfl rfl).1 ⟨"B", 3⟩ rfl,
   (c4_begin_confirmation {} ⟨[], [("U", ⟨"B", 3⟩)], []⟩ ⟨[], [], []⟩ "U"
      rfl rfl rfl).2.2.2 rfl⟩

/-- C6: ASK_NAME transition — a trimmed input below the variant's minimum
length (2 in the Supabase variant, 3 in the in-memory variant) re-prompts
leaving everything unchanged; otherwise the trimmed text becomes the
session's fullName and the step advances to ASK_COUNT. -/
theorem c6_ask_name (fl : DbFlags) (st : St) (mst : MemSt) (u t fn : String)
    (h : lookupK u st.sessions = some ⟨Step.ASK_NAME, fn⟩)
    (hm : lookupK u mst.sessions = some ⟨Step.ASK_NAME, fn⟩) :
    ((normalizeText t).length < 2 →
      handleEvent fl (textEvent u t) st = (.ok (some .askNameReprompt), st)) ∧
    (¬ (normalizeText t).length < 2 →
      handleEvent fl (textEvent u t) st =
        (.ok (some .askCountPrompt),
          { st with sessions :=
              mapSet u ⟨Step.ASK_COUNT, normalizeText t⟩ st.sessions })) ∧
    ((normalizeText t).length < 3 →
      memHandleEvent (textEvent u t) mst = (some .askNameReprompt, mst)) ∧
    (¬ (normalizeText t).length < 3 →
      memHandleEvent (textEvent u t) mst =
        (some .askCountPrompt,
          { mst with
              sessions := mapSet u ⟨Step.ASK_COUNT, normalizeText t⟩ mst.sessions })) := by
  have hbridge : memHandleEvent (textEvent u t) mst = memMessage u t mst := rfl
  refine ⟨?_, ?_, ?_, ?_⟩
  · intro hlen
    rw [handleEvent_session_text fl st u t ⟨Step.ASK_NAME, fn⟩ h]
    unfold stepHandle
    simp [hlen]
  · intro hlen
    rw [handleEvent_session_text fl st u t ⟨Step.ASK_NAME, fn⟩ h]
    unfold stepHandle
    simp [hlen]
  · intro hlen
    rw [hbridge]
    unfold memMessage
    simp [hm, hlen]
  · intro hlen
    rw [hbridge]
    unfold memMessage
    simp [hm, hlen]

/-- Witness for C6: a one-character name is re-prompted in both variants
on their thresholds; "สมชาย ใจดี" advances to ASK_COUNT. -/
theorem c6_ask_name_witness :
    handleEvent {} (textEvent "U" "ก")
        ⟨[("U", ⟨Step.ASK_NAME, ""⟩)], [], []⟩ =
      (.ok (some .askNameReprompt),
        ⟨[("U", ⟨Step.ASK_NAME, ""⟩)], [], []⟩) ∧
    handleEvent {} (textEvent "U" "สมชาย ใจดี")
        ⟨[("U", ⟨Step.ASK_NAME, ""⟩)], [], []⟩ =
      (.ok (some .askCountPrompt),
        { sessions := mapSet "U" ⟨Step.ASK_COUNT, normalizeText "สมชาย ใจดี"⟩
            [("U", ⟨Step.ASK_NAME, ""⟩)],
          rsvps := [], blessings := [] }) :=
  ⟨(c6_ask_name {} ⟨[("U", ⟨Step.ASK_NAME, ""⟩)], [], []⟩
      ⟨[("U", ⟨Step.ASK_NAME, ""⟩)], [], []⟩ "U" "ก" "" rfl rfl).1
      (by decide),
   (c6_ask_name {} ⟨[("U", ⟨Step.ASK_NAME, ""⟩)], [], []⟩
      ⟨[("U", ⟨Step.ASK_NAME, ""⟩)], [], []⟩ "U" "สมชาย ใจดี" "" rfl rfl).2.1
      (by decide)⟩

/-- C9: sign-blind count extraction in the Supabase variant — `isNumberLike`
skips any non-digit leading run, so prefixing non-digits (a minus sign
included) never changes the extracted value, and "-5" at ASK_COUNT is
accepted as count 5 with the record upserted and the session cleared. -/
theorem c9_sign_blind_extraction (s t : String)
    (hs : ∀ c ∈ s.data, c.isDigit = false) :
    isNumberLike (s ++ t) = isNumberLike t ∧
    isNumberLike "-5" = some 5 ∧
    handleEvent {} (textEvent "U" "-5")
        ⟨[("U", ⟨Step.ASK_COUNT, "สมชาย"⟩)], [], []⟩ =
      (.ok (some (.confirmDone "สมชาย" 5)),
        ⟨[], [("U", ⟨"สมชาย", 5⟩)], []⟩) := by
  refine ⟨?_, by decide, by decide⟩
  unfold isNumberLike
  rw [data_append, digitRunFrom_append s.data t.data hs]

/-- Witness for C9: the non-digit prefix "-" is ignored. -/
theorem c9_sign_blind_extraction_witness :
    isNumberLike ("-" ++ "5") = isNumberLike "5" :=
  (c9_sign_blind_extraction "-" "5" (by decide)).1

end Avolt
